import Mathlib

/-!
Verification development for the `eal` (Extended Access Logging) package
(github.com/modfin/eal): a shallow embedding, in Lean 4, of the package's
error-enrichment engine, and theorems settling a list of claims about it.

Embedded source files (current package `eal` versions):
  - `error.go`      : `Fields`, `ErrLogFunc`, `RegisterErrorLogFunc`,
                      `UnwrapError`, `GetInnerHTTPError`, `NewHTTPError`
  - `errorstacktrace.go` : `ErrorStackTrace`, `InhibitStacktraceForError`,
                      `Trace`
  - `entry.go`      : `Entry.WithError` (root-cause type label + chain walk)
  - `middleware.go` : `CreateLoggerMiddleware` (the per-request handler)

Modelling conventions:
  - Go `error` interface values are deep-embedded as the inductive `GoErr`.
    Pointer identity of distinct allocations is modelled by the `id : Nat`
    argument of `GoErr.base`; structural equality of `GoErr` terms models Go
    interface equality `==`.
  - A Go runtime type (`reflect.Type`) is modelled as `GoType`: a stable name
    plus its comparability bit (`reflect.Type.Comparable`).
  - An `interface{}` value with a non-nil type word and a nil pointer value
    (the "typed nil" pathology) is `GoErr.nilPtr t`.
  - An `*echo.HTTPError` with `Internal == nil` is `GoErr.httpErrorLeaf`;
    with non-nil `Internal` it is `GoErr.httpError`.  Likewise an error whose
    `SetLogFields` method exists is `selfDesc`/`selfDescLeaf` (with/without a
    (non-nil-returning) `Unwrap`).
  - Go map reads/writes whose key has a non-comparable dynamic type panic at
    runtime ("hash of unhashable type"); operations that can reach such an
    access are embedded in `Except GoPanic`.
  - `debug.Stack()` and other ambient data (request headers, uuid, latency)
    are passed as explicit parameters.
  - Field maps are association lists with "latest write first" semantics:
    `fieldsSet` conses, `fieldsGet` returns the first (most recent) binding,
    which matches Go map overwrite-on-assign semantics for lookups.
-/

/-- A structured-log field value (`interface{}` payloads used by the package). -/
inductive GoValue where
  | str (s : String)
  | int (n : Int)
  | bool (b : Bool)
deriving DecidableEq, Repr

/-- A Go runtime type: its `reflect.Type.String()` name and whether the type is
comparable (usable as a map key). -/
structure GoType where
  name : String
  comparable : Bool
deriving DecidableEq, Repr

/-- The runtime type of `*eal.ErrorStackTrace` (a pointer type, comparable). -/
def stackTraceGoType : GoType := ⟨"*eal.ErrorStackTrace", true⟩

/-- The runtime type of `*echo.HTTPError` (a pointer type, comparable). -/
def httpErrorGoType : GoType := ⟨"*echo.HTTPError", true⟩

/-- Deep embedding of the Go `error` interface values handled by the package.

  - `base t id msg` : an opaque leaf error (e.g. `errors.New`); `id`
    distinguishes distinct allocations of the same type and message.
  - `nilPtr t` : a non-nil interface holding a nil pointer of type `t`.
  - `wrap t msg inner` : a generic wrapper (e.g. `*fmt.wrapError`) whose
    `Error()` renders `msg` and whose `Unwrap()` returns `inner`.
  - `httpError code msg internal` : `*echo.HTTPError` with non-nil `Internal`;
    `httpErrorLeaf code msg` : one with `Internal == nil`.
  - `stackTrace stack inner` : `*eal.ErrorStackTrace` (built only by `Trace`).
  - `selfDesc t msg flds inner` : an error implementing
    `SetLogFields(map[string]interface{})` that writes the bindings `flds`,
    with `Unwrap()` returning `inner`; `selfDescLeaf` is the same without a
    further cause. -/
inductive GoErr where
  | base (t : GoType) (id : Nat) (msg : String)
  | nilPtr (t : GoType)
  | wrap (t : GoType) (msg : String) (inner : GoErr)
  | httpError (code : Int) (msg : GoValue) (internal : GoErr)
  | httpErrorLeaf (code : Int) (msg : GoValue)
  | stackTrace (stack : String) (inner : GoErr)
  | selfDesc (t : GoType) (msg : String) (flds : List (String × GoValue)) (inner : GoErr)
  | selfDescLeaf (t : GoType) (msg : String) (flds : List (String × GoValue))
deriving DecidableEq, Repr

/-- Model of `reflect.TypeOf` on an embedded error value. -/
def typeOf : GoErr → GoType
  | .base t _ _ => t
  | .nilPtr t => t
  | .wrap t _ _ => t
  | .httpError _ _ _ => httpErrorGoType
  | .httpErrorLeaf _ _ => httpErrorGoType
  | .stackTrace _ _ => stackTraceGoType
  | .selfDesc t _ _ _ => t
  | .selfDescLeaf t _ _ => t

/-- Model of `t.Kind() == reflect.Ptr && t.IsNil()` on `reflect.ValueOf(err)`: the
"non-nil interface, nil underlying value" test used by `Trace`,
`RegisterErrorLogFunc` and `InhibitStacktraceForError`. -/
def isNilPtrValue : GoErr → Bool
  | .nilPtr _ => true
  | _ => false

/-- Rendering of a `GoValue` by Go's `%v` verb. -/
def goValueText : GoValue → String
  | .str s => s
  | .int n => toString n
  | .bool b => toString b

/-- The `Error() string` method of each embedded error.  `*echo.HTTPError`
renders `code=<c>, message=<m>[, internal=<err>]`; `*eal.ErrorStackTrace`
returns the wrapped error's message unchanged (errorstacktrace.go `Error`). -/
def goError : GoErr → String
  | .base _ _ msg => msg
  | .nilPtr _ => ""
  | .wrap _ msg _ => msg
  | .httpError c m i =>
      "code=" ++ toString c ++ ", message=" ++ goValueText m ++ ", internal=" ++ goError i
  | .httpErrorLeaf c m => "code=" ++ toString c ++ ", message=" ++ goValueText m
  | .stackTrace _ inner => goError inner
  | .selfDesc _ msg _ _ => msg
  | .selfDescLeaf _ msg _ => msg

/-- Model of `errors.Unwrap`: the next cause in the chain, `none` when the node has no
`Unwrap` method or it returns nil.  `*echo.HTTPError.Unwrap` returns
`Internal`; `*eal.ErrorStackTrace.Unwrap` returns the wrapped error. -/
def unwrapGo : GoErr → Option GoErr
  | .wrap _ _ i => some i
  | .httpError _ _ i => some i
  | .stackTrace _ i => some i
  | .selfDesc _ _ _ i => some i
  | _ => none

/-- The full unwrap chain of an error, head first, terminal (root) cause last. -/
def chainList : GoErr → List GoErr
  | e@(.wrap _ _ i) => e :: chainList i
  | e@(.httpError _ _ i) => e :: chainList i
  | e@(.stackTrace _ i) => e :: chainList i
  | e@(.selfDesc _ _ _ i) => e :: chainList i
  | e => [e]

/-- Number of nodes in the unwrap chain. -/
def chainLength (e : GoErr) : Nat := (chainList e).length

/-- The terminal node of the unwrap chain (the loop in `Entry.WithError`:
`for errors.Unwrap(innerErr) != nil { innerErr = errors.Unwrap(innerErr) }`). -/
def rootCause : GoErr → GoErr
  | .wrap _ _ i => rootCause i
  | .httpError _ _ i => rootCause i
  | .stackTrace _ i => rootCause i
  | .selfDesc _ _ _ i => rootCause i
  | e => e

/-- Whether the node's dynamic type is `*echo.HTTPError`. -/
def isHttp : GoErr → Bool
  | .httpError _ _ _ => true
  | .httpErrorLeaf _ _ => true
  | _ => false

/-- Whether the node implements `SetLogFields(map[string]interface{})`
(the interface assertion at the top of the `UnwrapError` loop).
`*eal.ErrorStackTrace` implements it (errorstacktrace.go), as do the
self-describing error models. -/
def selfDescribing : GoErr → Bool
  | .stackTrace _ _ => true
  | .selfDesc _ _ _ _ => true
  | .selfDescLeaf _ _ _ => true
  | _ => false

/-- Model of `errors.As(err, &st)` for `st : *ErrorStackTrace`: does the unwrap chain
contain an `ErrorStackTrace` node (the idempotence check in `Trace`)? -/
def containsStackTrace : GoErr → Bool
  | .stackTrace _ _ => true
  | .wrap _ _ i => containsStackTrace i
  | .httpError _ _ i => containsStackTrace i
  | .selfDesc _ _ _ i => containsStackTrace i
  | _ => false

/-- A Go runtime panic raised by a map access whose interface key has a
non-comparable dynamic type ("hash of unhashable type"). -/
inductive GoPanic where
  | unhashableKey (typeName : String)
deriving DecidableEq, Repr

/-- A key of the process-wide registries `registeredErrorLogFunctions` and
`inhibitStacktraceForError` (both `map[interface{}]...`): either a specific
error value or a `reflect.Type`. -/
inductive RegKey where
  | value (e : GoErr)
  | type (t : GoType)
deriving DecidableEq, Repr

/-- Log field keys reserved by the package (entry.go / error.go constants). -/
def errorMessage : String := "error_message"

/-- Reserved stack-trace field key (entry.go). -/
def errorStack : String := "error_stack"

/-- Reserved root-cause-type field key (entry.go). -/
def errorType : String := "error_type"

/-- Field map (`Fields` / `map[string]interface{}`), most recent write first. -/
abbrev Fields := List (String × GoValue)

/-- Go map assignment `fields[k] = v`. -/
def fieldsSet (f : Fields) (k : String) (v : GoValue) : Fields := (k, v) :: f

/-- Go map read `fields[k]` (first, i.e. most recent, binding wins). -/
def fieldsGet : Fields → String → Option GoValue
  | [], _ => none
  | (k, v) :: rest, key => if key = k then some v else fieldsGet rest key

/-- Write a list of bindings in order (later writes shadow earlier ones). -/
def fieldsSetAll (f : Fields) : List (String × GoValue) → Fields
  | [] => f
  | (k, v) :: rest => fieldsSetAll (fieldsSet f k v) rest

/-- An `ErrLogFunc`: mutates the field map given the concrete error. -/
abbrev ErrLogFunc := GoErr → Fields → Fields

/-- The `registeredErrorLogFunctions` table, most recent registration first. -/
abbrev Registry := List (RegKey × ErrLogFunc)

/-- Go map read on the registry. -/
def regLookup (reg : Registry) (k : RegKey) : Option ErrLogFunc :=
  (reg.find? (fun p => p.1 == k)).map (fun p => p.2)

/-- Model of `RegisterErrorLogFunc(errFmtFunc, errList...)` (error.go): for each
identity, a typed-nil pointer registers the `reflect.Type`, anything else is
stored under the value key.  The value-key assignment
`registeredErrorLogFunctions[err] = errFmtFunc` panics when `err`'s dynamic
type is not comparable (Go: "hash of unhashable type"); there is no
comparability guard in this function. -/
def RegisterErrorLogFunc (errFmtFunc : ErrLogFunc) :
    List GoErr → Registry → Except GoPanic Registry
  | [], reg => .ok reg
  | e :: rest, reg =>
    if isNilPtrValue e then
      RegisterErrorLogFunc errFmtFunc rest ((RegKey.type (typeOf e), errFmtFunc) :: reg)
    else if (typeOf e).comparable then
      RegisterErrorLogFunc errFmtFunc rest ((RegKey.value e, errFmtFunc) :: reg)
    else
      .error (.unhashableKey (typeOf e).name)

/-- The `inhibitStacktraceForError` set (a `map[interface{}]struct\x7b\x7d`). -/
abbrev InhibitSet := List RegKey

/-- Model of `InhibitStacktraceForError(err...)` (errorstacktrace.go): same typed-nil /
value dual registration as `RegisterErrorLogFunc`, with the same implicit
panic on a non-comparable value key. -/
def InhibitStacktraceForError :
    List GoErr → InhibitSet → Except GoPanic InhibitSet
  | [], s => .ok s
  | e :: rest, s =>
    if isNilPtrValue e then
      InhibitStacktraceForError rest (RegKey.type (typeOf e) :: s)
    else if (typeOf e).comparable then
      InhibitStacktraceForError rest (RegKey.value e :: s)
    else
      .error (.unhashableKey (typeOf e).name)

/-- Severity of an emitted log record. -/
inductive LogLevel where
  | info
  | error
deriving DecidableEq, Repr

/-- One record emitted to the structured log sink (logrus). -/
structure LogRecord where
  level : LogLevel
  fields : Fields
  message : GoValue
deriving DecidableEq, Repr

/-- The `logrus.Errorf` text of the typed-nil diagnostic in `Trace`. -/
def nonNilInterfaceMsg (typeName : String) : String :=
  "# NON NIL INTERFACE TYPE DETECTED (error value is nil, error type is " ++
    typeName ++ ") #"

/-- Model of `Trace(err)` (errorstacktrace.go).  Here `stack` is the text `debug.Stack()`
would capture at the call point, `logDirect` the global `LogCallStackDirectly`
flag.  Returns the resulting error together with the log records emitted
synchronously.  Order of the source checks is preserved: nil, typed-nil guard,
inhibit-by-value, inhibit-by-type, already-traced, wrap.  The value read
`inhibitStacktraceForError[err]` panics when `err`'s dynamic type is not
comparable, hence the `Except`. -/
def Trace (inh : InhibitSet) (logDirect : Bool) (stack : String) :
    Option GoErr → Except GoPanic (Option GoErr × List LogRecord)
  | none => .ok (none, [])
  | some e =>
    if isNilPtrValue e then
      .ok (none, [⟨.error, [(errorStack, .str stack)],
                   .str (nonNilInterfaceMsg (typeOf e).name)⟩])
    else if (typeOf e).comparable then
      if RegKey.value e ∈ inh then
        .ok (some e, [])
      else if RegKey.type (typeOf e) ∈ inh then
        .ok (some e, [])
      else if containsStackTrace e then
        .ok (some e, [])
      else
        .ok (some (.stackTrace stack e),
          if logDirect then
            [⟨.error, [(errorMessage, .str (goError e)), (errorStack, .str stack)],
              .str "ERROR"⟩]
          else [])
    else
      .error (.unhashableKey (typeOf e).name)

/-- The registry consultation for one non-self-describing node of the
`UnwrapError` loop (error.go lines 191-199): the type-based table is read
first; only on a miss, and only when the dynamic type is comparable, is the
value-based table read. -/
def applyRegistry (reg : Registry) (e : GoErr) (f : Fields) : Fields :=
  match regLookup reg (.type (typeOf e)) with
  | some logFunc => logFunc e f
  | none =>
    if (typeOf e).comparable then
      match regLookup reg (.value e) with
      | some logFunc => logFunc e f
      | none => f
    else f

/-- The `for err != nil` loop of `UnwrapError`: each node either
self-describes via `SetLogFields` (skipping the registry) or is looked up in
the registry via `applyRegistry`; then the walk advances to the next cause.
`ErrorStackTrace.SetLogFields` writes the stack under `errorStack`. -/
def walkChain (reg : Registry) : GoErr → Fields → Fields
  | .stackTrace s i, f => walkChain reg i (fieldsSet f errorStack (.str s))
  | .selfDesc _ _ flds i, f => walkChain reg i (fieldsSetAll f flds)
  | .selfDescLeaf _ _ flds, f => fieldsSetAll f flds
  | e@(.wrap _ _ i), f => walkChain reg i (applyRegistry reg e f)
  | e@(.httpError _ _ i), f => walkChain reg i (applyRegistry reg e f)
  | e@(.base _ _ _), f => applyRegistry reg e f
  | e@(.nilPtr _), f => applyRegistry reg e f
  | e@(.httpErrorLeaf _ _), f => applyRegistry reg e f

/-- Model of `UnwrapError(err, fields)` (error.go): no-op on nil; otherwise set the
reserved message key to the head error's rendered message, then walk the
chain. -/
def UnwrapError (reg : Registry) : Option GoErr → Fields → Fields
  | none, f => f
  | some e, f => walkChain reg e (fieldsSet f errorMessage (.str (goError e)))

/-- Model of `Entry.WithError(err)` (entry.go): on non-nil error, record the terminal
cause's type name under the reserved `errorType` key, then run `UnwrapError`
to populate the remaining fields.  `data` is the entry's field map. -/
def WithError (reg : Registry) (data : Fields) : Option GoErr → Fields
  | none => data
  | some e =>
    UnwrapError reg (some e) (fieldsSet data errorType (.str (typeOf (rootCause e)).name))

/-- Model of `errors.As(err, &errMsg)` for `errMsg : *echo.HTTPError`: the first node
of the unwrap chain whose dynamic type is `*echo.HTTPError` (the node itself
is checked before unwrapping). -/
def findAs : GoErr → Option GoErr
  | e@(.httpError _ _ _) => some e
  | e@(.httpErrorLeaf _ _) => some e
  | .wrap _ _ i => findAs i
  | .stackTrace _ i => findAs i
  | .selfDesc _ _ _ i => findAs i
  | _ => none

theorem findAs_isHttp : ∀ e h, findAs e = some h → isHttp h = true := by
  intro e
  induction e with
  | base t id msg => intro h hh; simp [findAs] at hh
  | nilPtr t => intro h hh; simp [findAs] at hh
  | selfDescLeaf t m flds => intro h hh; simp [findAs] at hh
  | wrap t m i ih => intro h hh; exact ih h hh
  | stackTrace s i ih => intro h hh; exact ih h hh
  | selfDesc t m flds i ih => intro h hh; exact ih h hh
  | httpError c m i ih =>
      intro h hh; simp [findAs] at hh; subst hh; rfl
  | httpErrorLeaf c m =>
      intro h hh; simp [findAs] at hh; subst hh; rfl

theorem findAs_size : ∀ e h, findAs e = some h → sizeOf h ≤ sizeOf e := by
  intro e
  induction e with
  | base t id msg => intro h hh; simp [findAs] at hh
  | nilPtr t => intro h hh; simp [findAs] at hh
  | selfDescLeaf t m flds => intro h hh; simp [findAs] at hh
  | wrap t m i ih =>
      intro h hh
      have := ih h hh
      simp only [GoErr.wrap.sizeOf_spec]
      omega
  | stackTrace s i ih =>
      intro h hh
      have := ih h hh
      simp only [GoErr.stackTrace.sizeOf_spec]
      omega
  | selfDesc t m flds i ih =>
      intro h hh
      have := ih h hh
      simp only [GoErr.selfDesc.sizeOf_spec]
      omega
  | httpError c m i ih =>
      intro h hh; simp [findAs] at hh; subst hh; exact Nat.le_refl _
  | httpErrorLeaf c m =>
      intro h hh; simp [findAs] at hh; subst hh; exact Nat.le_refl _

/-- Model of `GetInnerHTTPError(err)` (error.go): repeatedly `errors.As` for an
`*echo.HTTPError`, descending into `Internal` after each match; the last
match — the innermost HTTP error — is returned. -/
def GetInnerHTTPError (e : GoErr) : Option GoErr :=
  match hfa : findAs e with
  | none => none
  | some (.httpError c m i) =>
    match GetInnerHTTPError i with
    | none => some (.httpError c m i)
    | some r => some r
  | some h => some h
termination_by sizeOf e
decreasing_by
  have hle := findAs_size e _ hfa
  simp only [GoErr.httpError.sizeOf_spec] at hle
  omega

/-- Model of `http.StatusText` for the status codes this development uses. -/
def statusText (code : Int) : String :=
  if code = 400 then "Bad Request"
  else if code = 404 then "Not Found"
  else if code = 500 then "Internal Server Error"
  else ""

/-- Model of `NewHTTPError(err, code, msg...)` (error.go): build an `echo.HTTPError`
with the given code and message (defaulting to `http.StatusText(code)` when no
message is supplied) and set its `Internal` to `err`. -/
def NewHTTPError (err : Option GoErr) (code : Int) (msg : Option GoValue) : GoErr :=
  let m := match msg with
    | some v => v
    | none => .str (statusText code)
  match err with
  | some e => .httpError code m e
  | none => .httpErrorLeaf code m

/-- Spec-side definition for the innermost-match property: walking the chain
from the head, remember the last `*echo.HTTPError` node seen; the innermost
(earliest-raised) HTTP error of the chain. -/
def innermostHTTPError (e : GoErr) : Option GoErr :=
  (chainList e).foldl (fun acc n => if isHttp n then some n else acc) none

/-- The `for err != nil` loop skeleton shared by `UnwrapError` and
`Entry.WithError`, with the `errors.Unwrap` advance abstracted as `next` and
an explicit fuel bound: `some visited` when the loop finishes within `fuel`
iterations (`visited` being the nodes processed, in order), `none` when the
loop is still running after `fuel` iterations.  The loop stops only when
`next` yields no further cause. -/
def chainWalkSteps (next : α → Option α) : Nat → α → Option (List α)
  | 0, _ => none
  | fuel + 1, x =>
    match next x with
    | none => some [x]
    | some y =>
      match chainWalkSteps next fuel y with
      | none => none
      | some l => some (x :: l)

/-- The per-node effect of one iteration of the `UnwrapError` loop. -/
def applyNode (reg : Registry) (f : Fields) (n : GoErr) : Fields :=
  match n with
  | .stackTrace s _ => fieldsSet f errorStack (.str s)
  | .selfDesc _ _ flds _ => fieldsSetAll f flds
  | .selfDescLeaf _ _ flds => fieldsSetAll f flds
  | _ => applyRegistry reg n f

/-- Input to one invocation of the handler produced by
`CreateLoggerMiddleware` (middleware.go): the request headers and metadata it
reads, the uuid it would generate, the endpoint's returned error, the fields
the endpoint added through `AddContextFields`, and the measured latency and
response status. -/
structure MwInput where
  xHost : String
  xForwardedHost : String
  xRequestId : String
  xRemoteAddr : String
  method : String
  uri : String
  routerPath : String
  generatedId : String
  handlerErr : Option GoErr
  handlerAddedFields : Fields
  latencyMs : Int
  resStatus : Int

/-- Observable outcome of one invocation of the middleware handler: the error
returned to the echo framework, the arguments of the `c.Error` calls made, the
log records emitted, and the `X-Request-Id` written to the response (when the
inbound request had none). -/
structure MwOutput where
  returned : Option GoErr
  cErrorCalls : List GoErr
  logs : List LogRecord
  responseRequestId : Option String

/-- Model of the request handler returned by `CreateLoggerMiddleware()`
(middleware.go): resolve the `X-Host` header, ensure a request id, assemble
the context log fields, run the endpoint, send the innermost HTTP error (or a
fresh 500 wrapping the returned error) through `c.Error`, append latency and
status, build the log entry (fields with a `_` prefix excluded, `WithError`
when an error was returned), emit it at error level exactly when the entry
carries `errorMessage`, and finally return nil to the framework. -/
def CreateLoggerMiddleware (reg : Registry) (inp : MwInput) : MwOutput :=
  let host := if inp.xHost ≠ "" then inp.xHost
    else if inp.xForwardedHost ≠ "" then (inp.xForwardedHost.splitOn ":").headD ""
    else ""
  let id := if inp.xRequestId ≠ "" then inp.xRequestId else inp.generatedId
  let respId := if inp.xRequestId ≠ "" then none else some id
  let logFields0 : Fields :=
    [("request_id", .str id), ("remote_ip", .str inp.xRemoteAddr),
     ("host", .str host), ("method", .str inp.method), ("uri", .str inp.uri),
     ("router_path", .str inp.routerPath)]
  let logFields1 := fieldsSetAll logFields0 inp.handlerAddedFields
  let errAfter : Option GoErr :=
    match inp.handlerErr with
    | none => none
    | some e =>
      match GetInnerHTTPError e with
      | some _ => some e
      | none => some (.httpError 500 (.str "Internal Server Error") e)
  let cErrs : List GoErr :=
    match inp.handlerErr with
    | none => []
    | some e =>
      match GetInnerHTTPError e with
      | some h => [h]
      | none => [.httpError 500 (.str "Internal Server Error") e]
  let logFields2 :=
    fieldsSet (fieldsSet logFields1 "latency_ms" (.int inp.latencyMs)) "status"
      (.int inp.resStatus)
  let entryData0 : Fields := logFields2.filter (fun p => !(p.1.startsWith "_"))
  let entryData1 :=
    match errAfter with
    | none => entryData0
    | some e => WithError reg entryData0 (some e)
  let msg : GoValue :=
    match fieldsGet logFields2 "_msg" with
    | some v => v
    | none => .str "access"
  let lvl : LogLevel :=
    match fieldsGet entryData1 errorMessage with
    | some _ => .error
    | none => .info
  ⟨none, cErrs, [⟨lvl, entryData1, msg⟩], respId⟩

theorem fieldsGet_set_self (f : Fields) (k : String) (v : GoValue) :
    fieldsGet (fieldsSet f k v) k = some v := by
  simp [fieldsSet, fieldsGet]

theorem fieldsGet_set_ne (f : Fields) (k key : String) (v : GoValue)
    (h : key ≠ k) : fieldsGet (fieldsSet f k v) key = fieldsGet f key := by
  simp [fieldsSet, fieldsGet, h]

theorem fieldsGet_setAll_ne (l : List (String × GoValue)) (key : String) :
    ∀ f : Fields, l.all (fun p => p.1 ≠ key) = true →
      fieldsGet (fieldsSetAll f l) key = fieldsGet f key := by
  induction l with
  | nil => intro f _; rfl
  | cons p rest ih =>
      intro f hall
      simp only [List.all_cons, Bool.and_eq_true, decide_eq_true_eq] at hall
      obtain ⟨hp, hrest⟩ := hall
      have : fieldsGet (fieldsSetAll (fieldsSet f p.1 p.2) rest) key
          = fieldsGet (fieldsSet f p.1 p.2) key := by
        apply ih
        simp only [List.all_eq_true, decide_eq_true_eq] at hrest ⊢
        exact hrest
      calc fieldsGet (fieldsSetAll f (p :: rest)) key
      _ = fieldsGet (fieldsSet f p.1 p.2) key := this
      _ = fieldsGet f key := fieldsGet_set_ne f p.1 key p.2 (by intro hc; exact hp hc.symm)

theorem regLookup_mem (reg : Registry) (k : RegKey) (h : ErrLogFunc)
    (hl : regLookup reg k = some h) : ∃ k0, (k0, h) ∈ reg := by
  unfold regLookup at hl
  cases hfind : reg.find? (fun p => p.1 == k) with
  | none => rw [hfind] at hl; simp at hl
  | some p =>
      rw [hfind] at hl
      simp only [Option.map_some', Option.some.injEq] at hl
      subst hl
      exact ⟨p.1, by simpa using List.mem_of_find?_eq_some hfind⟩

/-- A registry whose handlers never touch the field `key`. -/
def RegPreserves (reg : Registry) (key : String) : Prop :=
  ∀ k h, (k, h) ∈ reg → ∀ x g, fieldsGet (h x g) key = fieldsGet g key

/-- No self-describing node of the chain writes the field `key` through its
`SetLogFields` method. -/
def noSelfDescWrite (key : String) : GoErr → Bool
  | .selfDesc _ _ flds i => flds.all (fun p => p.1 ≠ key) && noSelfDescWrite key i
  | .selfDescLeaf _ _ flds => flds.all (fun p => p.1 ≠ key)
  | .stackTrace _ i => noSelfDescWrite key i
  | .wrap _ _ i => noSelfDescWrite key i
  | .httpError _ _ i => noSelfDescWrite key i
  | _ => true

theorem applyRegistry_get (reg : Registry) (key : String) (e : GoErr) (f : Fields)
    (hreg : RegPreserves reg key) :
    fieldsGet (applyRegistry reg e f) key = fieldsGet f key := by
  unfold applyRegistry
  cases htl : regLookup reg (.type (typeOf e)) with
  | some logFunc =>
      obtain ⟨k0, hmem⟩ := regLookup_mem reg _ _ htl
      exact hreg k0 logFunc hmem e f
  | none =>
      simp only
      by_cases hc : (typeOf e).comparable
      · simp only [hc, if_true]
        cases hvl : regLookup reg (.value e) with
        | some logFunc =>
            obtain ⟨k0, hmem⟩ := regLookup_mem reg _ _ hvl
            exact hreg k0 logFunc hmem e f
        | none => rfl
      · simp [hc]

theorem walkChain_get (reg : Registry) (key : String)
    (hst : key ≠ errorStack) (hreg : RegPreserves reg key) :
    ∀ e f, noSelfDescWrite key e = true →
      fieldsGet (walkChain reg e f) key = fieldsGet f key := by
  intro e
  induction e with
  | base t id msg =>
      intro f _
      exact applyRegistry_get reg key _ f hreg
  | nilPtr t =>
      intro f _
      exact applyRegistry_get reg key _ f hreg
  | httpErrorLeaf c m =>
      intro f _
      exact applyRegistry_get reg key _ f hreg
  | wrap t m i ih =>
      intro f hw
      have hw' : noSelfDescWrite key i = true := hw
      calc fieldsGet (walkChain reg i (applyRegistry reg (.wrap t m i) f)) key
      _ = fieldsGet (applyRegistry reg (.wrap t m i) f) key := ih _ hw'
      _ = fieldsGet f key := applyRegistry_get reg key _ f hreg
  | httpError c m i ih =>
      intro f hw
      have hw' : noSelfDescWrite key i = true := hw
      calc fieldsGet (walkChain reg i (applyRegistry reg (.httpError c m i) f)) key
      _ = fieldsGet (applyRegistry reg (.httpError c m i) f) key := ih _ hw'
      _ = fieldsGet f key := applyRegistry_get reg key _ f hreg
  | stackTrace s i ih =>
      intro f hw
      have hw' : noSelfDescWrite key i = true := hw
      calc fieldsGet (walkChain reg i (fieldsSet f errorStack (.str s))) key
      _ = fieldsGet (fieldsSet f errorStack (.str s)) key := ih _ hw'
      _ = fieldsGet f key := fieldsGet_set_ne f errorStack key _ hst
  | selfDesc t m flds i ih =>
      intro f hw
      simp only [noSelfDescWrite, Bool.and_eq_true] at hw
      obtain ⟨hflds, hw'⟩ := hw
      calc fieldsGet (walkChain reg i (fieldsSetAll f flds)) key
      _ = fieldsGet (fieldsSetAll f flds) key := ih _ hw'
      _ = fieldsGet f key := fieldsGet_setAll_ne flds key f hflds
  | selfDescLeaf t m flds =>
      intro f hw
      have hflds : flds.all (fun p => p.1 ≠ key) = true := hw
      exact fieldsGet_setAll_ne flds key f hflds

theorem chainWalkSteps_unwrapGo :
    ∀ e : GoErr, chainWalkSteps unwrapGo (chainLength e) e = some (chainList e) := by
  intro e
  induction e with
  | base t id msg => rfl
  | nilPtr t => rfl
  | httpErrorLeaf c m => rfl
  | selfDescLeaf t m flds => rfl
  | wrap t m i ih =>
      simp only [chainLength, chainList, List.length_cons, chainWalkSteps, unwrapGo]
      rw [show (chainList i).length = chainLength i from rfl, ih]
  | httpError c m i ih =>
      simp only [chainLength, chainList, List.length_cons, chainWalkSteps, unwrapGo]
      rw [show (chainList i).length = chainLength i from rfl, ih]
  | stackTrace s i ih =>
      simp only [chainLength, chainList, List.length_cons, chainWalkSteps, unwrapGo]
      rw [show (chainList i).length = chainLength i from rfl, ih]
  | selfDesc t m flds i ih =>
      simp only [chainLength, chainList, List.length_cons, chainWalkSteps, unwrapGo]
      rw [show (chainList i).length = chainLength i from rfl, ih]

theorem chainWalkSteps_cycle :
    ∀ n : Nat, chainWalkSteps (fun _ : Unit => some ()) n () = none := by
  intro n
  induction n with
  | zero => rfl
  | succ n ih => simp only [chainWalkSteps, ih]

theorem walkChain_eq_foldl (reg : Registry) :
    ∀ e f, walkChain reg e f = (chainList e).foldl (applyNode reg) f := by
  intro e
  induction e with
  | base t id msg => intro f; rfl
  | nilPtr t => intro f; rfl
  | httpErrorLeaf c m => intro f; rfl
  | selfDescLeaf t m flds => intro f; rfl
  | wrap t m i ih =>
      intro f
      simp only [walkChain, chainList, List.foldl_cons, ih, applyNode]
  | httpError c m i ih =>
      intro f
      simp only [walkChain, chainList, List.foldl_cons, ih, applyNode]
  | stackTrace s i ih =>
      intro f
      simp only [walkChain, chainList, List.foldl_cons, ih, applyNode]
  | selfDesc t m flds i ih =>
      intro f
      simp only [walkChain, chainList, List.foldl_cons, ih, applyNode]

/-- One step of the innermost-match fold: remember the latest HTTP node seen. -/
def innerStep (acc : Option GoErr) (n : GoErr) : Option GoErr :=
  if isHttp n then some n else acc

theorem innermost_def (e : GoErr) :
    innermostHTTPError e = (chainList e).foldl innerStep none := rfl

theorem foldl_innerStep_acc :
    ∀ (l : List GoErr) (acc : Option GoErr),
      l.foldl innerStep acc = (l.foldl innerStep none).elim acc some := by
  intro l
  induction l with
  | nil => intro acc; rfl
  | cons x l ih =>
      intro acc
      simp only [List.foldl_cons]
      rw [ih (innerStep acc x), ih (innerStep none x)]
      cases hfl : l.foldl innerStep none with
      | some r => rfl
      | none =>
          cases hx : isHttp x <;> simp [innerStep, hx]

theorem findAs_none_innermost :
    ∀ e, findAs e = none → (chainList e).foldl innerStep none = none := by
  intro e
  induction e with
  | base t id msg => intro _; rfl
  | nilPtr t => intro _; rfl
  | selfDescLeaf t m flds => intro _; rfl
  | httpError c m i ih => intro h; simp [findAs] at h
  | httpErrorLeaf c m => intro h; simp [findAs] at h
  | wrap t m i ih =>
      intro h
      have h' : findAs i = none := h
      simp only [chainList, List.foldl_cons]
      rw [show innerStep none (.wrap t m i) = none from rfl]
      exact ih h'
  | stackTrace s i ih =>
      intro h
      have h' : findAs i = none := h
      simp only [chainList, List.foldl_cons]
      rw [show innerStep none (.stackTrace s i) = none from rfl]
      exact ih h'
  | selfDesc t m flds i ih =>
      intro h
      have h' : findAs i = none := h
      simp only [chainList, List.foldl_cons]
      rw [show innerStep none (.selfDesc t m flds i) = none from rfl]
      exact ih h'

theorem findAs_some_innermost :
    ∀ e h, findAs e = some h →
      (chainList e).foldl innerStep none = (chainList h).foldl innerStep none := by
  intro e
  induction e with
  | base t id msg => intro h hh; simp [findAs] at hh
  | nilPtr t => intro h hh; simp [findAs] at hh
  | selfDescLeaf t m flds => intro h hh; simp [findAs] at hh
  | httpError c m i ih =>
      intro h hh; simp only [findAs, Option.some.injEq] at hh; rw [hh]
  | httpErrorLeaf c m =>
      intro h hh; simp only [findAs, Option.some.injEq] at hh; rw [hh]
  | wrap t m i ih =>
      intro h hh
      have h' : findAs i = some h := hh
      simp only [chainList, List.foldl_cons]
      rw [show innerStep none (.wrap t m i) = none from rfl]
      exact ih h h'
  | stackTrace s i ih =>
      intro h hh
      have h' : findAs i = some h := hh
      simp only [chainList, List.foldl_cons]
      rw [show innerStep none (.stackTrace s i) = none from rfl]
      exact ih h h'
  | selfDesc t m flds i ih =>
      intro h hh
      have h' : findAs i = some h := hh
      simp only [chainList, List.foldl_cons]
      rw [show innerStep none (.selfDesc t m flds i) = none from rfl]
      exact ih h h'

theorem sizeOf_goErr_pos : ∀ e : GoErr, 0 < sizeOf e := by
  intro e
  cases e <;> simp_arith

theorem getInner_eq_innermost_aux :
    ∀ n : Nat, ∀ e : GoErr, sizeOf e ≤ n →
      GetInnerHTTPError e = innermostHTTPError e := by
  intro n
  induction n with
  | zero =>
      intro e he
      exact absurd he (by have := sizeOf_goErr_pos e; omega)
  | succ n ih =>
      intro e he
      rw [GetInnerHTTPError]
      split
      · rename_i heq
        rw [innermost_def, findAs_none_innermost e heq]
      · rename_i c m i heq
        have hsz : sizeOf (GoErr.httpError c m i) ≤ sizeOf e := findAs_size e _ heq
        have hszi : sizeOf i ≤ n := by
          simp only [GoErr.httpError.sizeOf_spec] at hsz
          omega
        rw [innermost_def, findAs_some_innermost e _ heq]
        simp only [chainList, List.foldl_cons]
        rw [show innerStep none (.httpError c m i) = some (.httpError c m i) from rfl]
        rw [foldl_innerStep_acc]
        rw [← innermost_def, ← ih i hszi]
        cases GetInnerHTTPError i with
        | none => rfl
        | some r => rfl
      · rename_i h hconstr heq
        have hh : isHttp h = true := findAs_isHttp e h heq
        cases h with
        | httpError c m i => exact absurd rfl (hconstr c m i)
        | httpErrorLeaf c m =>
            rw [innermost_def, findAs_some_innermost e _ heq]
            rfl
        | base t id msg => simp [isHttp] at hh
        | nilPtr t => simp [isHttp] at hh
        | wrap t m i => simp [isHttp] at hh
        | stackTrace s i => simp [isHttp] at hh
        | selfDesc t m flds i => simp [isHttp] at hh
        | selfDescLeaf t m flds => simp [isHttp] at hh

/-- C8: Trace on a non-nil interface holding a nil pointer emits one
error-level diagnostic record carrying the freshly captured stack and returns
nil; Trace on nil returns nil (emitting nothing); and UnwrapError on nil
leaves the field map entirely unchanged (in particular the message key is not
set). -/
theorem C8_degenerate_inputs :
    (∀ (inh : InhibitSet) (d : Bool) (s : String) (t : GoType),
      Trace inh d s (some (.nilPtr t)) =
        .ok (none, [⟨.error, [(errorStack, .str s)], .str (nonNilInterfaceMsg t.name)⟩]))
    ∧ (∀ (inh : InhibitSet) (d : Bool) (s : String), Trace inh d s none = .ok (none, []))
    ∧ (∀ (reg : Registry) (f : Fields), UnwrapError reg none f = f) := by
  refine ⟨?_, ?_, ?_⟩
  · intro inh d s t
    simp [Trace, isNilPtrValue, typeOf]
  · intro inh d s; rfl
  · intro reg f; rfl

/-- C10: the handler produced by CreateLoggerMiddleware returns nil to the
echo framework for every request, even when the wrapped endpoint returned a
non-nil error; exactly one log record is emitted per request, and the error is
consumed inside the middleware by exactly one `c.Error` call when the endpoint
returned an error. -/
theorem C10_middleware_returns_nil :
    ∀ (reg : Registry) (inp : MwInput),
      (CreateLoggerMiddleware reg inp).returned = none
      ∧ (CreateLoggerMiddleware reg inp).logs.length = 1
      ∧ (CreateLoggerMiddleware reg inp).cErrorCalls.length =
          (match inp.handlerErr with | none => 0 | some _ => 1) := by
  intro reg inp
  refine ⟨rfl, rfl, ?_⟩
  cases h : inp.handlerErr with
  | none => simp [CreateLoggerMiddleware, h]
  | some e =>
      cases hg : GetInnerHTTPError e <;> simp [CreateLoggerMiddleware, h, hg]

/-- C3: stack capture is idempotent.  Whenever a first call `Trace(x)`
returns a value `r` (for any inhibit set, flag and captured stack), a second
call on `r` — at any later point, with any newly captured stack — returns `r`
itself, emitting nothing: no second ErrorStackTrace node is introduced and the
stack text carried is the one captured by the first call. -/
theorem C3_trace_idempotent :
    ∀ (inh : InhibitSet) (d1 d2 : Bool) (s1 s2 : String) (x : GoErr)
      (r : Option GoErr) (logs : List LogRecord),
      Trace inh d1 s1 (some x) = .ok (r, logs) →
      Trace inh d2 s2 r = .ok (r, []) := by
  intro inh d1 d2 s1 s2 x r logs h
  simp only [Trace] at h
  by_cases hnp : isNilPtrValue x = true
  · rw [if_pos hnp] at h
    simp only [Except.ok.injEq, Prod.mk.injEq] at h
    obtain ⟨h1, _⟩ := h
    subst h1
    rfl
  · rw [if_neg hnp] at h
    by_cases hcmp : (typeOf x).comparable = true
    · rw [if_pos hcmp] at h
      by_cases hv : RegKey.value x ∈ inh
      · rw [if_pos hv] at h
        simp only [Except.ok.injEq, Prod.mk.injEq] at h
        obtain ⟨h1, _⟩ := h
        subst h1
        simp only [Trace]
        rw [if_neg hnp, if_pos hcmp, if_pos hv]
      · rw [if_neg hv] at h
        by_cases ht : RegKey.type (typeOf x) ∈ inh
        · rw [if_pos ht] at h
          simp only [Except.ok.injEq, Prod.mk.injEq] at h
          obtain ⟨h1, _⟩ := h
          subst h1
          simp only [Trace]
          rw [if_neg hnp, if_pos hcmp, if_neg hv, if_pos ht]
        · rw [if_neg ht] at h
          by_cases hcs : containsStackTrace x = true
          · rw [if_pos hcs] at h
            simp only [Except.ok.injEq, Prod.mk.injEq] at h
            obtain ⟨h1, _⟩ := h
            subst h1
            simp only [Trace]
            rw [if_neg hnp, if_pos hcmp, if_neg hv, if_neg ht, if_pos hcs]
          · rw [if_neg hcs] at h
            simp only [Except.ok.injEq, Prod.mk.injEq] at h
            obtain ⟨h1, _⟩ := h
            subst h1
            simp [Trace, isNilPtrValue, typeOf, stackTraceGoType, containsStackTrace]
    · rw [if_neg hcmp] at h
      exact absurd h (by simp)

/-- Concrete error used by the C3 witness (an `errors.New` sentinel). -/
def c3x : GoErr := .base ⟨"*errors.errorString", true⟩ 0 "boom"

/-- C3 witness: instantiating the idempotence theorem at a concrete error. -/
theorem C3_witness :
    Trace [] false "stack two" (some (.stackTrace "stack one" c3x)) =
      .ok (some (.stackTrace "stack one" c3x), []) :=
  C3_trace_idempotent [] false false "stack one" "stack two" c3x
    (some (.stackTrace "stack one" c3x)) [] rfl

/-- Concrete type marker used by the C4 counterexample (as in
`InhibitStacktraceForError((*jwt.ValidationError)(nil))`). -/
def c4type : GoType := ⟨"*jwt.ValidationError", true⟩

/-- C4 counterexample: the claim fails for a typed-nil instance of an
inhibited type.  After inhibiting the type via its typed-nil marker, calling
Trace on that very typed-nil value does not return the supplied error
unchanged: the nil-interface guard runs before the inhibit lookup, logs a
diagnostic (capturing a stack) and returns nil. -/
theorem C4_counterexample :
    InhibitStacktraceForError [.nilPtr c4type] [] = .ok [RegKey.type c4type]
    ∧ Trace [RegKey.type c4type] false "stk" (some (.nilPtr c4type)) =
        .ok (none, [⟨.error, [(errorStack, .str "stk")],
          .str (nonNilInterfaceMsg "*jwt.ValidationError")⟩])
    ∧ Trace [RegKey.type c4type] false "stk" (some (.nilPtr c4type)) ≠
        .ok (some (.nilPtr c4type), []) := by
  refine ⟨rfl, rfl, ?_⟩
  intro hc
  simp only [Trace, isNilPtrValue, if_pos, Except.ok.injEq, Prod.mk.injEq] at hc
  exact Option.noConfusion hc.1

/-- C4 (amended): for every error that is not a typed-nil pointer value and
whose dynamic type is comparable (which every identity registrable in the
inhibit set is), if its identity — value or type — is inhibited, Trace
returns the supplied error itself, unmodified, constructing no
ErrorStackTrace and emitting no log record. -/
theorem C4_inhibited_trace_unchanged :
    ∀ (inh : InhibitSet) (d : Bool) (s : String) (e : GoErr),
      isNilPtrValue e = false → (typeOf e).comparable = true →
      (RegKey.value e ∈ inh ∨ RegKey.type (typeOf e) ∈ inh) →
      Trace inh d s (some e) = .ok (some e, []) := by
  intro inh d s e hnp hcmp hm
  simp only [Trace]
  rw [if_neg (by simp [hnp]), if_pos hcmp]
  by_cases hv : RegKey.value e ∈ inh
  · rw [if_pos hv]
  · rw [if_neg hv, if_pos (hm.resolve_left hv)]

/-- Concrete inhibited sentinel for the C4 witness (as in
`InhibitStacktraceForError(sql.ErrNoRows)`). -/
def c4err : GoErr := .base ⟨"*errors.errorString", true⟩ 1 "sql: no rows in result set"

/-- C4 witness: the amended theorem applied to a concrete inhibited value. -/
theorem C4_witness :
    Trace [RegKey.value c4err] false "stk" (some c4err) = .ok (some c4err, []) :=
  C4_inhibited_trace_unchanged [RegKey.value c4err] false "stk" c4err rfl rfl
    (Or.inl (List.mem_singleton.mpr rfl))

/-- Concrete dynamic type for the C1 counterexample. -/
def c1type : GoType := ⟨"*errors.errorString", true⟩

/-- Concrete sentinel error registered both by value and by type. -/
def c1err : GoErr := .base c1type 7 "sentinel"

/-- Handler registered under the value key. -/
def c1ValueHandler : ErrLogFunc := fun _ f => fieldsSet f "by_value" (.bool true)

/-- Handler registered under the type key. -/
def c1TypeHandler : ErrLogFunc := fun _ f => fieldsSet f "by_type" (.bool true)

/-- Registry with only the value registration. -/
def c1RegValueOnly : Registry := [(RegKey.value c1err, c1ValueHandler)]

/-- Registry with both registrations (the value one first, then the type one,
exactly as two successive `RegisterErrorLogFunc` calls build it). -/
def c1Reg : Registry := [(RegKey.type c1type, c1TypeHandler), (RegKey.value c1err, c1ValueHandler)]

/-- C1 counterexample: register a handler for a sentinel under its value, and
another under its type; walking a chain consisting of that sentinel invokes
the type-registered handler, not the value-registered one — the claim's
value-first lookup order (and hence the value-overrides-type consequence)
does not hold for the code. -/
theorem C1_counterexample :
    RegisterErrorLogFunc c1ValueHandler [c1err] [] = .ok c1RegValueOnly
    ∧ RegisterErrorLogFunc c1TypeHandler [.nilPtr c1type] c1RegValueOnly = .ok c1Reg
    ∧ fieldsGet (UnwrapError c1Reg (some c1err) []) "by_type" = some (.bool true)
    ∧ fieldsGet (UnwrapError c1Reg (some c1err) []) "by_value" = none :=
  ⟨rfl, rfl, rfl, rfl⟩

/-- C1 (amended): during the chain walk, the lookup for a
non-self-describing node consults the type-based table first; only when no
type-based handler matches — and only when the node's dynamic type is
comparable — is the value-based table consulted; consequently, for an error
registered both as a specific value and under its type, the type-registered
handler is the one invoked for that node. -/
theorem C1_type_lookup_first :
    ∀ (reg : Registry) (e : GoErr) (f : Fields) (h : ErrLogFunc),
      (regLookup reg (.type (typeOf e)) = some h → applyRegistry reg e f = h e f)
      ∧ (regLookup reg (.type (typeOf e)) = none → (typeOf e).comparable = true →
          regLookup reg (.value e) = some h → applyRegistry reg e f = h e f) := by
  intro reg e f h
  constructor
  · intro ht
    simp [applyRegistry, ht]
  · intro ht hc hv
    simp [applyRegistry, ht, hc, hv]

/-- C1 witness: with both registrations present the type handler fires; with
only the value registration present the value handler fires. -/
theorem C1_witness :
    applyRegistry c1Reg c1err [] = c1TypeHandler c1err []
    ∧ applyRegistry c1RegValueOnly c1err [] = c1ValueHandler c1err [] :=
  ⟨(C1_type_lookup_first c1Reg c1err [] c1TypeHandler).1 rfl,
   (C1_type_lookup_first c1RegValueOnly c1err [] c1ValueHandler).2 rfl rfl rfl⟩

/-- Concrete non-comparable dynamic type (a struct containing a slice, as the
test type `eal.nonComparableError`). -/
def c2type : GoType := ⟨"eal.nonComparableError", false⟩

/-- Concrete non-comparable error value (not a typed-nil marker). -/
def c2err : GoErr := .base c2type 0 "test,lines"

/-- A handler for the C2 registration attempt. -/
def c2handler : ErrLogFunc := fun _ f => f

/-- C2 counterexample: registering a non-comparable error value panics (Go
map assignment with an unhashable key) instead of being silently skipped. -/
theorem C2_counterexample :
    RegisterErrorLogFunc c2handler [c2err] [] =
      .error (.unhashableKey "eal.nonComparableError") := rfl

/-- C2 (amended): registering a non-comparable error value (not a typed-nil
type marker) panics with "hash of unhashable type"; the silent skip exists
only on the lookup side — UnwrapError's registry consultation performs the
value-based lookup only when the dynamic type is comparable, so a
non-comparable node with no type-based handler contributes nothing, without
panicking. -/
theorem C2_register_nonComparable_panics :
    ∀ (h : ErrLogFunc) (e : GoErr) (rest : List GoErr) (reg : Registry),
      isNilPtrValue e = false → (typeOf e).comparable = false →
      (RegisterErrorLogFunc h (e :: rest) reg = .error (.unhashableKey (typeOf e).name)
       ∧ ∀ f : Fields, regLookup reg (.type (typeOf e)) = none →
           applyRegistry reg e f = f) := by
  intro h e rest reg hnp hcmp
  constructor
  · simp [RegisterErrorLogFunc, hnp, hcmp]
  · intro f ht
    simp [applyRegistry, ht, hcmp]

/-- C2 witness: the amended theorem applied to the concrete non-comparable
value. -/
theorem C2_witness :
    RegisterErrorLogFunc c2handler [c2err] [] =
      .error (.unhashableKey (typeOf c2err).name)
    ∧ applyRegistry [] c2err [] = [] :=
  ⟨(C2_register_nonComparable_panics c2handler c2err [] [] rfl rfl).1,
   (C2_register_nonComparable_panics c2handler c2err [] [] rfl rfl).2 [] rfl⟩

/-- C5: for every non-nil error, UnwrapError sets the reserved message field
exactly once, to the rendered message of the head of the chain before any
unwrapping (not the root cause) — provided nothing else (registered handler or
self-describing node) writes that reserved key, the final field map carries
precisely the head's message; and the ErrorStackTrace wrapper is transparent
to this: its `Error()` is exactly the wrapped error's `Error()` text. -/
theorem C5_message_from_head :
    ∀ (reg : Registry) (e : GoErr) (f : Fields),
      RegPreserves reg errorMessage →
      noSelfDescWrite errorMessage e = true →
      (fieldsGet (UnwrapError reg (some e) f) errorMessage = some (.str (goError e))
       ∧ ∀ (s : String) (x : GoErr), goError (.stackTrace s x) = goError x) := by
  intro reg e f hreg hsd
  constructor
  · have hw := walkChain_get reg errorMessage (by decide) hreg e
      (fieldsSet f errorMessage (.str (goError e))) hsd
    calc fieldsGet (UnwrapError reg (some e) f) errorMessage
    _ = fieldsGet (fieldsSet f errorMessage (.str (goError e))) errorMessage := hw
    _ = some (.str (goError e)) := fieldsGet_set_self f errorMessage _
  · intro s x
    rfl

/-- Concrete traced chain for the C5 witness: Trace-wrapped `errors.New`. -/
def c5err : GoErr := .stackTrace "stack text" (.base ⟨"*errors.errorString", true⟩ 0 "boom")

/-- C5 witness: the theorem applied to a concrete chain and empty registry;
the head of the chain is the ErrorStackTrace wrapper and the recorded message
is the wrapped error's text. -/
theorem C5_witness :
    fieldsGet (UnwrapError [] (some c5err) []) errorMessage = some (.str "boom") :=
  (C5_message_from_head [] c5err []
    (fun _ _ hk => absurd hk (List.not_mem_nil _)) (by decide)).1

/-- C6: GetInnerHTTPError returns the innermost (earliest-raised)
echo.HTTPError of the chain — for every chain it equals the last HTTP node
seen when walking head to root, so when the chain holds more than one, the
deepest one's status and message win; in particular, for a 500 wrapping a
404 "expired token", the 404 node is returned. -/
theorem C6_innermost_http_error :
    (∀ e : GoErr, GetInnerHTTPError e = innermostHTTPError e)
    ∧ GetInnerHTTPError
        (NewHTTPError (some (NewHTTPError none 404 (some (.str "expired token")))) 500
          (some (.str "some message")))
      = some (NewHTTPError none 404 (some (.str "expired token"))) := by
  constructor
  · intro e
    exact getInner_eq_innermost_aux (sizeOf e) e (Nat.le_refl _)
  · rw [show (NewHTTPError (some (NewHTTPError none 404 (some (.str "expired token")))) 500
        (some (.str "some message")))
      = .httpError 500 (.str "some message") (.httpErrorLeaf 404 (.str "expired token"))
      from rfl]
    rw [GetInnerHTTPError]
    simp only [findAs]
    rw [GetInnerHTTPError]
    simp [findAs, NewHTTPError]

/-- C7: for every non-nil error passed to Entry.WithError, the reserved
root-cause-type field is set to the type name of the terminal node of the
unwrap chain, regardless of how many wrapping layers precede it (and it is
written before the chain walk, so it survives provided no handler or
self-describing node rewrites that reserved key). -/
theorem C7_root_cause_type :
    ∀ (reg : Registry) (data : Fields) (e : GoErr),
      RegPreserves reg errorType →
      noSelfDescWrite errorType e = true →
      fieldsGet (WithError reg data (some e)) errorType =
        some (.str (typeOf (rootCause e)).name) := by
  intro reg data e hreg hsd
  have hw := walkChain_get reg errorType (by decide) hreg e
    (fieldsSet (fieldsSet data errorType (.str (typeOf (rootCause e)).name)) errorMessage
      (.str (goError e))) hsd
  calc fieldsGet (WithError reg data (some e)) errorType
  _ = fieldsGet (fieldsSet (fieldsSet data errorType (.str (typeOf (rootCause e)).name))
        errorMessage (.str (goError e))) errorType := hw
  _ = fieldsGet (fieldsSet data errorType (.str (typeOf (rootCause e)).name)) errorType :=
      fieldsGet_set_ne _ errorMessage errorType _ (by decide)
  _ = some (.str (typeOf (rootCause e)).name) := fieldsGet_set_self data errorType _

/-- Concrete three-layer chain for the C7 witness: a generic wrapper around a
traced `errors.New` sentinel. -/
def c7err : GoErr :=
  .wrap ⟨"*fmt.wrapError", true⟩ "wrapped: boom"
    (.stackTrace "stk" (.base ⟨"*errors.errorString", true⟩ 0 "boom"))

/-- C7 witness: the theorem applied to the concrete chain; the label is the
terminal node's type, not a wrapper's. -/
theorem C7_witness :
    fieldsGet (WithError [] [] (some c7err)) errorType =
      some (.str "*errors.errorString") :=
  C7_root_cause_type [] [] c7err
    (fun _ _ hk => absurd hk (List.not_mem_nil _)) (by decide)

/-- C9 counterexample: the claim asserts termination regardless of cycles,
but the walk (which stops only when no further cause exists and has no cycle
guard or depth bound) never finishes on a self-unwrapping error — a Go value
whose `Unwrap` returns the value itself, modelled by the constant-successor
`fun _ => some ()`: after 1000 iterations the loop is still running. -/
theorem C9_counterexample :
    chainWalkSteps (fun _ : Unit => some ()) 1000 () = none :=
  chainWalkSteps_cycle 1000

/-- C9 (amended): UnwrapError terminates and visits every node of the chain
exactly once in order for every acyclic (finite) chain — the loop, run with
fuel equal to the chain's length, finishes having visited exactly the chain's
nodes, and the field walk folds over precisely those nodes — but the loop
stops only when no further cause exists, so on a (hypothetical) cyclic unwrap
successor it never terminates for any amount of fuel. -/
theorem C9_walk_termination_acyclic :
    (∀ e : GoErr, chainWalkSteps unwrapGo (chainLength e) e = some (chainList e))
    ∧ (∀ (reg : Registry) (e : GoErr) (f : Fields),
        walkChain reg e f = (chainList e).foldl (applyNode reg) f)
    ∧ (∀ n : Nat, chainWalkSteps (fun _ : Unit => some ()) n () = none) :=
  ⟨chainWalkSteps_unwrapGo, walkChain_eq_foldl, chainWalkSteps_cycle⟩
